import Mathlib

/-!
# Verification of the audio capture / speech-to-text pipeline

A shallow embedding of the renderer's interval-recording pipeline
(`resampleAudio`, `processAudioChunk`, `startIntervalRecording` /
`stopIntervalRecording`, `updateTranscriptionUI`) and of the main-process
`transcribeAudio` client, together with theorems settling the spec's
testable properties.

Modelling conventions:
* JavaScript numbers are modelled as exact rationals (`ℚ`); `Math.round`
  is Mathlib's `round` (both are `⌊x + 1/2⌋`), `Math.floor` is `Int.floor`.
* `Float32Array` index reads are modelled with `List.getD` (default `0`);
  every claim-relevant read is proved in range.
* Fallible external calls are `Except String _` values supplied by an
  environment record; `try`/`catch` is the corresponding `match`.
-/

/-- The renderer's `resampleAudio` (linear-interpolation resampling).
Mirrors the source line by line: identity when the rates are equal,
otherwise `ratio = originalSampleRate / targetSampleRate`,
`newLength = Math.round(length / ratio)`, and per output index `i`
linear interpolation at `position = i * ratio`, clamped to the last
input sample once `floor(position) >= length - 1`. -/
def resampleAudio (audioData : List ℚ) (originalSampleRate targetSampleRate : ℚ) :
    List ℚ :=
  if originalSampleRate = targetSampleRate then
    audioData
  else
    let ratio := originalSampleRate / targetSampleRate
    let newLength := (round ((audioData.length : ℚ) / ratio)).toNat
    (List.range newLength).map fun (i : ℕ) =>
      let position := (i : ℚ) * ratio
      let index := ⌊position⌋
      let fraction := position - (index : ℚ)
      if (audioData.length : ℤ) - 1 ≤ index then
        audioData.getD (audioData.length - 1) 0
      else
        audioData.getD index.toNat 0 * (1 - fraction) +
          audioData.getD (index.toNat + 1) 0 * fraction

/-- The input indices the interpolation loop of `resampleAudio` reads for
output index `i` (source lines 46–50): the clamp branch reads only the
last sample, the interpolation branch reads `index` and `index + 1`. -/
def resampleReadIndices (len : ℕ) (ratio : ℚ) (i : ℕ) : List ℤ :=
  let index := ⌊(i : ℚ) * ratio⌋
  if (len : ℤ) - 1 ≤ index then [(len : ℤ) - 1] else [index, index + 1]

/-- Equal rates leave the input unchanged (the first branch of the
source). -/
theorem resampleAudio_same_rate (x : List ℚ) (r : ℚ) : resampleAudio x r r = x := by
  simp [resampleAudio]

/-- **C6.** Identity resampling: `resample(x, r, r) = x` for every rate `r`
and every sample sequence `x` (the source returns its argument unchanged
when the two rates are equal). -/
theorem resampleAudio_identity (x : List ℚ) (r : ℚ) : resampleAudio x r r = x :=
  resampleAudio_same_rate x r

/-- **C4.** Resampling length: for positive rates `r1 ≠ r2`,
`len(resample(x, r1, r2)) = round(len(x) * r2 / r1)`. -/
theorem resampleAudio_length (x : List ℚ) (r1 r2 : ℚ)
    (hne : r1 ≠ r2) (h1 : 0 < r1) (h2 : 0 < r2) :
    ((resampleAudio x r1 r2).length : ℤ) = round ((x.length : ℚ) * r2 / r1) := by
  unfold resampleAudio
  rw [if_neg hne]
  simp only [List.length_map, List.length_range]
  have harg : (0 : ℚ) ≤ (x.length : ℚ) / (r1 / r2) := by positivity
  have hnn : 0 ≤ round ((x.length : ℚ) / (r1 / r2)) := by
    rw [round_eq]
    exact Int.le_floor.mpr (by push_cast; linarith)
  rw [Int.toNat_of_nonneg hnn, div_div_eq_mul_div]

/-- Witness for C4 at `x = [1, 2, 3]`, `r1 = 2`, `r2 = 1`. -/
theorem resampleAudio_length_witness :
    (2 : ℚ) ≠ 1 ∧ (0 : ℚ) < 2 ∧ (0 : ℚ) < 1 ∧
      ((resampleAudio [1, 2, 3] 2 1).length : ℤ) =
        round ((([1, 2, 3] : List ℚ).length : ℚ) * 1 / 2) :=
  ⟨by norm_num, by norm_num, by norm_num,
    resampleAudio_length [1, 2, 3] 2 1 (by norm_num) (by norm_num) (by norm_num)⟩

/-- **C5.** Clamp safety: for a non-empty input and positive rates, every
input index the interpolation loop reads is in `[0, len)`, and whenever the
floor of the fractional source position reaches the last valid input index
or beyond, the output sample equals the last input sample. -/
theorem resampleAudio_clamp (x : List ℚ) (r1 r2 : ℚ)
    (hx : x ≠ []) (h1 : 0 < r1) (h2 : 0 < r2) :
    (∀ i, ∀ j ∈ resampleReadIndices x.length (r1 / r2) i,
        0 ≤ j ∧ j < (x.length : ℤ)) ∧
    (∀ i, i < (resampleAudio x r1 r2).length →
        (x.length : ℤ) - 1 ≤ ⌊(i : ℚ) * (r1 / r2)⌋ →
        (resampleAudio x r1 r2).getD i 0 = x.getD (x.length - 1) 0) := by
  have hlen : 0 < x.length := List.length_pos.mpr hx
  have hratio : (0 : ℚ) ≤ r1 / r2 := by positivity
  constructor
  · intro i j hj
    unfold resampleReadIndices at hj
    have hidx : 0 ≤ ⌊(i : ℚ) * (r1 / r2)⌋ :=
      Int.le_floor.mpr (by push_cast; positivity)
    by_cases hcl : (x.length : ℤ) - 1 ≤ ⌊(i : ℚ) * (r1 / r2)⌋
    · rw [if_pos hcl] at hj
      simp only [List.mem_singleton] at hj
      subst hj
      omega
    · rw [if_neg hcl] at hj
      simp only [List.mem_cons, List.mem_singleton, List.not_mem_nil, or_false] at hj
      rcases hj with rfl | rfl <;> omega
  · intro i hi hclamp
    by_cases hr : r1 = r2
    · subst hr
      rw [resampleAudio_same_rate] at hi ⊢
      have hone : r1 / r1 = 1 := div_self (ne_of_gt h1)
      rw [hone, mul_one, Int.floor_natCast] at hclamp
      have : i = x.length - 1 := by omega
      rw [this]
    · unfold resampleAudio at hi ⊢
      rw [if_neg hr] at hi ⊢
      simp only [List.length_map, List.length_range] at hi
      rw [List.getD_eq_getElem?_getD, List.getElem?_map, List.getElem?_range hi]
      simp only [Option.map_some', Option.getD_some]
      rw [if_pos hclamp]

/-- Witness for C5 at `x = [5]`, `r1 = 2`, `r2 = 1` (output length 1,
output index 0 falls in the clamp branch). -/
theorem resampleAudio_clamp_witness :
    ([(5 : ℚ)] ≠ ([] : List ℚ)) ∧
      (resampleAudio [(5 : ℚ)] 2 1).getD 0 0 = ([(5 : ℚ)]).getD 0 0 :=
  ⟨by simp,
    (resampleAudio_clamp [(5 : ℚ)] 2 1 (by simp) (by norm_num) (by norm_num)).2 0
      (by norm_num [resampleAudio, round_eq]) (by norm_num)⟩

/-! ## Windowing scheduler (rxjs `buffer(interval)` with `takeUntil(stop)`) -/

/-- An event seen by the interval-recording pipeline: a chunk arriving from
`audio_stream()`, a tick of the `interval` observable, or the stop subject
firing (`stopIntervalRecording`). -/
inductive RecEvent where
  | chunk (c : List ℚ)
  | tick
  | stop
deriving DecidableEq, Repr

/-- Scheduler state: the windows already emitted by `buffer(interval)` (in
tick order), the chunks accumulated since the last tick, and whether
`takeUntil(stopSubject)` has unsubscribed the pipeline. -/
structure SchedState where
  windows : List (List (List ℚ))
  buf : List (List ℚ)
  stopped : Bool
deriving DecidableEq, Repr

/-- One step of the rxjs pipeline `audio_stream().pipe(buffer(interval),
takeUntil(stopSubject))`: a chunk is appended to the current buffer; a tick
detaches the buffer as a completed window and resets it to empty; after the
stop subject fires, nothing further is delivered. -/
def schedStep (s : SchedState) (e : RecEvent) : SchedState :=
  if s.stopped then s
  else
    match e with
    | .chunk c => { s with buf := s.buf ++ [c] }
    | .tick => { windows := s.windows ++ [s.buf], buf := [], stopped := s.stopped }
    | .stop => { s with stopped := true }

/-- Run the scheduler over a whole event trace from the fresh state. -/
def runSched (es : List RecEvent) : SchedState :=
  es.foldl schedStep ⟨[], [], false⟩

/-- The chunk stream carried by a trace, in arrival order. -/
def chunksOf : List RecEvent → List (List ℚ)
  | [] => []
  | .chunk c :: es => c :: chunksOf es
  | .tick :: es => chunksOf es
  | .stop :: es => chunksOf es

/-- Windows actually handed to the Segment Processor: the `next` handler of
the subscription skips a window with zero chunks (`if (chunks.length === 0)
return`). -/
def handedWindows (es : List RecEvent) : List (List (List ℚ)) :=
  (runSched es).windows.filter fun w => !w.isEmpty

/-- A stop-free trace never unsubscribes the pipeline. -/
theorem schedStep_stopped (es : List RecEvent) :
    ∀ s : SchedState, s.stopped = false → RecEvent.stop ∉ es →
      (es.foldl schedStep s).stopped = false := by
  induction es with
  | nil => intro s hs _; exact hs
  | cons e es ih =>
    intro s hs hstop
    have hmem : RecEvent.stop ∉ es := fun h => hstop (List.mem_cons_of_mem _ h)
    cases e with
    | chunk c => exact ih _ (by simp [schedStep, hs]) hmem
    | tick => exact ih _ (by simp [schedStep, hs]) hmem
    | stop => exact absurd (List.mem_cons_self _ _) hstop

/-- Partition invariant of `buffer(interval)`: over a stop-free trace, the
emitted windows followed by the pending buffer carry exactly the chunk
stream, in arrival order. -/
theorem schedStep_partition (es : List RecEvent) :
    ∀ s : SchedState, s.stopped = false → RecEvent.stop ∉ es →
      (es.foldl schedStep s).windows.flatten ++ (es.foldl schedStep s).buf =
        s.windows.flatten ++ s.buf ++ chunksOf es := by
  induction es with
  | nil => intro s _ _; simp [chunksOf]
  | cons e es ih =>
    intro s hs hstop
    have hmem : RecEvent.stop ∉ es := fun h => hstop (List.mem_cons_of_mem _ h)
    cases e with
    | chunk c =>
      have h2 := ih { s with buf := s.buf ++ [c] } (by simp [hs]) hmem
      rw [hs] at h2
      simp only [List.foldl_cons, schedStep, hs, Bool.false_eq_true, if_false]
      rw [h2]
      simp [chunksOf]
    | tick =>
      have h2 := ih { windows := s.windows ++ [s.buf], buf := [], stopped := s.stopped }
        (by simp [hs]) hmem
      rw [hs] at h2
      simp only [List.foldl_cons, schedStep, hs, Bool.false_eq_true, if_false]
      rw [h2]
      simp [chunksOf]
    | stop => exact absurd (List.mem_cons_self _ _) hstop

/-- Dropping the empty windows does not change the concatenation. -/
theorem flatten_filter_not_isEmpty (l : List (List (List ℚ))) :
    (l.filter fun w => !w.isEmpty).flatten = l.flatten := by
  induction l with
  | nil => rfl
  | cons w ws ih =>
    rw [List.filter_cons]
    by_cases hw : w.isEmpty
    · have hwnil : w = [] := by simpa using hw
      simp [hw, hwnil, ih]
    · simp [hw, ih]

/-- A trailing tick delivers no chunk. -/
theorem chunksOf_append_tick (es : List RecEvent) :
    chunksOf (es ++ [RecEvent.tick]) = chunksOf es := by
  induction es with
  | nil => simp [chunksOf]
  | cons e es ih => cases e <;> simp [chunksOf, ih]

/-- **C2.** No double counting: for every chunk stream and tick schedule with
no `stop()` mid-stream (an arbitrary `stop`-free event trace, closed by a
final tick so that every chunk belongs to a completed window), the
concatenation of the chunks of all windows handed to the Segment Processor
equals the full chunk stream in arrival order — no chunk is in two windows
and none is omitted. -/
theorem handedWindows_no_double_counting (es : List RecEvent)
    (hstop : RecEvent.stop ∉ es) :
    (handedWindows (es ++ [RecEvent.tick])).flatten = chunksOf es := by
  unfold handedWindows runSched
  rw [flatten_filter_not_isEmpty, List.foldl_append]
  have hstopped : (es.foldl schedStep ⟨[], [], false⟩).stopped = false :=
    schedStep_stopped es ⟨[], [], false⟩ rfl hstop
  have hinv := schedStep_partition es ⟨[], [], false⟩ rfl hstop
  simp only [List.flatten_nil, List.nil_append] at hinv
  simp only [List.foldl_cons, List.foldl_nil, schedStep, hstopped,
    Bool.false_eq_true, if_false]
  rw [List.flatten_append]
  simpa using hinv

/-- Witness for C2 on the concrete trace
`chunk [1]; tick; chunk [2]; chunk [3]` (closed by the final tick): the two
handed windows concatenate back to `[[1], [2], [3]]`. -/
theorem handedWindows_no_double_counting_witness :
    RecEvent.stop ∉ [RecEvent.chunk [(1 : ℚ)], RecEvent.tick,
        RecEvent.chunk [(2 : ℚ)], RecEvent.chunk [(3 : ℚ)]] ∧
      (handedWindows ([RecEvent.chunk [(1 : ℚ)], RecEvent.tick,
          RecEvent.chunk [(2 : ℚ)], RecEvent.chunk [(3 : ℚ)]] ++
            [RecEvent.tick])).flatten =
        chunksOf [RecEvent.chunk [(1 : ℚ)], RecEvent.tick,
          RecEvent.chunk [(2 : ℚ)], RecEvent.chunk [(3 : ℚ)]] :=
  ⟨by decide, handedWindows_no_double_counting _ (by decide)⟩

/-! ## Session controller (`startIntervalRecording` / `stopIntervalRecording`) -/

/-- The renderer's module-level session state: the `isRecording` flag, the
`recordingSubscription` handle, the accumulated `transcriptionResults`
(result values abstracted as `ℕ` identifiers), and the
`window.stopRecordingSubject` global. Handles are identified by `ℕ`. -/
structure SessionState where
  isRecording : Bool
  recordingSubscription : Option ℕ
  transcriptionResults : List ℕ
  stopRecordingSubject : Option ℕ
deriving DecidableEq, Repr

/-- `startIntervalRecording`: no-op when already recording; otherwise sets
the flag, clears the previous results, opens a fresh subscription and stores
a fresh stop subject (`fresh` names the handles the call creates). -/
def startIntervalRecording (fresh : ℕ) (s : SessionState) : SessionState :=
  if s.isRecording then s
  else
    { isRecording := true
      recordingSubscription := some fresh
      transcriptionResults := []
      stopRecordingSubject := some fresh }

/-- `stopIntervalRecording`: no-op when not recording; otherwise fires and
clears the stop subject, unsubscribes and clears the subscription, and
lowers the flag (the accumulated results are kept and logged). -/
def stopIntervalRecording (s : SessionState) : SessionState :=
  if !s.isRecording then s
  else
    { isRecording := false
      recordingSubscription := none
      transcriptionResults := s.transcriptionResults
      stopRecordingSubject := none }

/-- **C7.** Idempotent start/stop: from any state, `start()` while already
recording leaves the entire session state unchanged, and `stop()` while not
recording leaves it unchanged — so at most one session is ever active. -/
theorem startStop_idempotent (s : SessionState) :
    (s.isRecording = true → ∀ fresh, startIntervalRecording fresh s = s) ∧
      (s.isRecording = false → stopIntervalRecording s = s) := by
  constructor
  · intro h fresh
    simp [startIntervalRecording, h]
  · intro h
    simp [stopIntervalRecording, h]

/-- Witness for C7: a running state absorbs `start()`, an idle state absorbs
`stop()`. -/
theorem startStop_idempotent_witness :
    startIntervalRecording 9 ⟨true, some 4, [7], some 4⟩ = ⟨true, some 4, [7], some 4⟩ ∧
      stopIntervalRecording ⟨false, none, [7], none⟩ = ⟨false, none, [7], none⟩ :=
  ⟨(startStop_idempotent ⟨true, some 4, [7], some 4⟩).1 rfl 9,
    (startStop_idempotent ⟨false, none, [7], none⟩).2 rfl⟩

/-! ## Segment processor (`processAudioChunk` and the subscription handler) -/

/-- `DEVICE_SAMPLE_RATE` (44100 Hz, the capture device rate). -/
def DEVICE_SAMPLE_RATE : ℚ := 44100

/-- `TARGET_SAMPLE_RATE` (8000 Hz, required by the inference endpoint). -/
def TARGET_SAMPLE_RATE : ℚ := 8000

/-- Little-endian bytes of an unsigned 16-bit value. -/
def toLE16 (v : ℕ) : List ℕ := [v % 256, v / 256 % 256]

/-- Little-endian bytes of an unsigned 32-bit value. -/
def toLE32 (v : ℕ) : List ℕ :=
  [v % 256, v / 256 % 256, v / 65536 % 256, v / 16777216 % 256]

/-- Quantize a normalized sample to signed 16-bit PCM: scale by 32767,
round, clamp to the signed 16-bit range, represented as two little-endian
bytes of the two's-complement value. -/
def quantize16 (s : ℚ) : List ℕ :=
  toLE16 ((max (-32768) (min 32767 (round (s * 32767))) % 65536).toNat)

/-- Modelled from the spec: `renderWavFile` — the Container Encoder of
§4.2; the file `wav.ts` it lives in is not among the provided sources.
Per the spec it must fail (not silently truncate) on zero samples, and
otherwise emit a standard WAV header (RIFF/WAVE with channel count, sample
rate, byte rate, block alignment and bit depth) followed by the 16-bit
little-endian PCM sample bytes. -/
def renderWavFile (samples : List ℚ) (numChannels sampleRate bitDepth : ℕ) :
    Except String (List ℕ) :=
  if samples.isEmpty then
    .error "cannot encode zero samples"
  else
    let bytesPerSample := bitDepth / 8
    let blockAlign := numChannels * bytesPerSample
    let byteRate := sampleRate * blockAlign
    let dataSize := samples.length * bytesPerSample
    .ok ([82, 73, 70, 70] ++ toLE32 (36 + dataSize) ++ [87, 65, 86, 69] ++
      [102, 109, 116, 32] ++ toLE32 16 ++ toLE16 1 ++ toLE16 numChannels ++
      toLE32 sampleRate ++ toLE32 byteRate ++ toLE16 blockAlign ++
      toLE16 bitDepth ++ [100, 97, 116, 97] ++ toLE32 dataSize ++
      samples.flatMap quantize16)

/-- A downstream call made while processing one window. -/
inductive SegCall where
  | resampleCall
  | encodeCall
  | persistCall
  | inferCall
  | displayCall
deriving DecidableEq, Repr

/-- The external collaborators of `processAudioChunk`: the WAV encoder, the
persistence call `window.nodeAPI.writeFile`, and the inference call
`window.nodeAPI.transcribeAudio` (results abstracted as `ℕ` identifiers). -/
structure SegEnv where
  encodeWav : List ℚ → Except String (List ℕ)
  writeFile : List ℕ → Except String Unit
  transcribeAudio : List ℕ → Except String ℕ

/-- Outcome of one `processAudioChunk` invocation: its return value, the
session result list afterwards, and the downstream calls it made. -/
structure SegOutcome where
  ret : Option ℕ
  transcriptionResults : List ℕ
  calls : List SegCall
deriving DecidableEq, Repr

/-- The renderer's `processAudioChunk`, instrumented with the downstream
calls it makes. The chunks are flattened into one sample sequence, resampled
from 44100 Hz to 8000 Hz, encoded to WAV, persisted, and sent for inference;
on success the result is appended to `transcriptionResults` and forwarded to
the display. The whole body sits in a `try`/`catch` that swallows any thrown
error and returns null, so a failure at any step aborts the remainder of
that segment only. -/
def processAudioChunk (env : SegEnv) (results : List ℕ) (chunks : List (List ℚ)) :
    SegOutcome :=
  let originalAudioData := chunks.flatten
  let resampledAudioData :=
    resampleAudio originalAudioData DEVICE_SAMPLE_RATE TARGET_SAMPLE_RATE
  match env.encodeWav resampledAudioData with
  | .error _ => ⟨none, results, [.resampleCall, .encodeCall]⟩
  | .ok wavData =>
    match env.writeFile wavData with
    | .error _ => ⟨none, results, [.resampleCall, .encodeCall, .persistCall]⟩
    | .ok _ =>
      match env.transcribeAudio wavData with
      | .error _ =>
        ⟨none, results, [.resampleCall, .encodeCall, .persistCall, .inferCall]⟩
      | .ok result =>
        ⟨some result, results ++ [result],
          [.resampleCall, .encodeCall, .persistCall, .inferCall, .displayCall]⟩

/-- The subscription's `next` handler: a window with zero chunks is skipped
(`if (chunks.length === 0) return`), otherwise it is handed to
`processAudioChunk`. -/
def subscriptionNext (env : SegEnv) (results : List ℕ) (chunks : List (List ℚ)) :
    SegOutcome :=
  if chunks.length = 0 then ⟨none, results, []⟩
  else processAudioChunk env results chunks

/-- Resampling an empty sample sequence yields an empty sequence. -/
theorem resampleAudio_nil (r1 r2 : ℚ) : resampleAudio [] r1 r2 = [] := by
  unfold resampleAudio
  by_cases h : r1 = r2 <;> simp [h]

/-- The resample step runs in every branch of `processAudioChunk`. -/
theorem resampleCall_mem (env : SegEnv) (results : List ℕ)
    (chunks : List (List ℚ)) :
    SegCall.resampleCall ∈ (processAudioChunk env results chunks).calls := by
  unfold processAudioChunk
  dsimp only
  rcases env.encodeWav (resampleAudio chunks.flatten DEVICE_SAMPLE_RATE
      TARGET_SAMPLE_RATE) with e | wavData
  · simp
  · cases hw2 : env.writeFile wavData with
    | error e => simp [hw2]
    | ok u =>
      cases ht : env.transcribeAudio wavData with
      | error e => simp [hw2, ht]
      | ok result => simp [hw2, ht]

/-- A concrete environment in which persistence fails while encoding and
inference would succeed. -/
def persistFailEnv : SegEnv where
  encodeWav := fun _ => .ok [0]
  writeFile := fun _ => .error "EACCES: permission denied"
  transcribeAudio := fun _ => .ok 1

/-- **C1 (counterexample).** With a failing persistence call (and inference
that would succeed), `processAudioChunk` makes no inference call, appends
nothing to the result list and returns null: the thrown write error is
caught by the segment-level `catch`, aborting the rest of the segment — the
claim that the inference call is still invoked is false. -/
theorem persist_failure_not_best_effort :
    SegCall.inferCall ∉ (processAudioChunk persistFailEnv [] [[(1 : ℚ)]]).calls ∧
      (processAudioChunk persistFailEnv [] [[(1 : ℚ)]]).transcriptionResults = [] ∧
      (processAudioChunk persistFailEnv [] [[(1 : ℚ)]]).ret = none := by
  decide

/-- **C1 (amended).** If the persistence call for a window's encoded buffer
fails, the error is caught by the segment-level handler: the segment is
aborted — the inference call is not invoked, nothing is appended to the
session's result list, nothing is displayed and null is returned — but the
error does not propagate, so the session itself continues. -/
theorem persist_failure_aborts_segment (env : SegEnv) (results : List ℕ)
    (chunks : List (List ℚ)) (wavData : List ℕ) (e : String)
    (henc : env.encodeWav (resampleAudio chunks.flatten DEVICE_SAMPLE_RATE
        TARGET_SAMPLE_RATE) = .ok wavData)
    (hw : env.writeFile wavData = .error e) :
    processAudioChunk env results chunks =
      ⟨none, results, [SegCall.resampleCall, SegCall.encodeCall,
        SegCall.persistCall]⟩ := by
  unfold processAudioChunk
  simp only [henc, hw]

/-- Witness for the amended C1 in the concrete failing-persistence
environment. -/
theorem persist_failure_aborts_segment_witness :
    processAudioChunk persistFailEnv [] [[(1 : ℚ)]] =
      ⟨none, [], [SegCall.resampleCall, SegCall.encodeCall,
        SegCall.persistCall]⟩ :=
  persist_failure_aborts_segment persistFailEnv [] [[(1 : ℚ)]] [0]
    "EACCES: permission denied" rfl rfl

/-- The concrete environment with the spec's own encoder (which fails on
zero samples) and succeeding persistence and inference. -/
def specSegEnv : SegEnv where
  encodeWav := fun samples => renderWavFile samples 1 8000 16
  writeFile := fun _ => .ok ()
  transcribeAudio := fun _ => .ok 1

/-- **C3 (counterexample).** A window consisting of one zero-length chunk is
not skipped: it reaches `processAudioChunk`, which does call the resampler
(the emptiness check `chunks.length === 0` counts chunks, not samples) — the
claim that no resample call is made is false. -/
theorem empty_window_not_skipped :
    SegCall.resampleCall ∈ (processAudioChunk specSegEnv [] [[]]).calls := by
  have h : ([[]] : List (List ℚ)).flatten = [] := by simp
  simp [processAudioChunk, specSegEnv, h, resampleAudio_nil, renderWavFile]

/-- **C3 (amended).** A window with zero chunks is skipped by the
subscription handler with no downstream call at all; but every window
consisting of one or more zero-length chunks (any non-empty chunk list
whose concatenation is the empty sample sequence) is handed to
`processAudioChunk`, which always invokes the resampler, and — with the
spec's encoder, which fails on the empty sample sequence — returns null
after the encode step, with no persist, inference or display call. -/
theorem empty_window_skip_amended (env : SegEnv) (results : List ℕ)
    (chunks : List (List ℚ)) (_hne : chunks ≠ [])
    (hflat : chunks.flatten = []) :
    subscriptionNext env results [] = ⟨none, results, []⟩ ∧
      SegCall.resampleCall ∈ (processAudioChunk env results chunks).calls ∧
      processAudioChunk specSegEnv results chunks =
        ⟨none, results, [SegCall.resampleCall, SegCall.encodeCall]⟩ := by
  refine ⟨by simp [subscriptionNext], resampleCall_mem env results chunks, ?_⟩
  simp [processAudioChunk, specSegEnv, hflat, resampleAudio_nil, renderWavFile]

/-- Witness for the amended C3 at the two-zero-length-chunk window
`[[], []]`. -/
theorem empty_window_skip_amended_witness :
    subscriptionNext specSegEnv [] [] = ⟨none, [], []⟩ ∧
      SegCall.resampleCall ∈ (processAudioChunk specSegEnv [] [[], []]).calls ∧
      processAudioChunk specSegEnv [] [[], []] =
        ⟨none, [], [SegCall.resampleCall, SegCall.encodeCall]⟩ :=
  empty_window_skip_amended specSegEnv [] [[], []] (by simp) (by simp)

/-! ## Display collaborator (`updateTranscriptionUI` text extraction) -/

/-- A JavaScript/JSON value as it can appear in the `text` field of a
transcription result. -/
inductive JsValue where
  | vUndef
  | vNull
  | vBool (b : Bool)
  | vNum (n : ℤ)
  | vStr (s : String)
  | vArr (elems : List JsValue)
  | vObj (fields : List (String × JsValue))

/-- JavaScript truthiness. -/
def jsTruthy : JsValue → Bool
  | .vUndef => false
  | .vNull => false
  | .vBool b => b
  | .vNum n => n != 0
  | .vStr s => s != ""
  | .vArr _ => true
  | .vObj _ => true

/-- Whether a value is `null` or `undefined` (rendered as the empty string
by `Array.prototype.join`). -/
def isNullOrUndef : JsValue → Bool
  | .vNull => true
  | .vUndef => true
  | _ => false

mutual

/-- JavaScript `String()` conversion: primitives print their usual form,
arrays join their elements with commas (`null`/`undefined` elements become
empty), plain objects print `[object Object]`. -/
def jsString : JsValue → String
  | .vUndef => "undefined"
  | .vNull => "null"
  | .vBool b => cond b "true" "false"
  | .vNum n => toString n
  | .vStr s => s
  | .vArr elems => String.intercalate "," (jsStringArrElems elems)
  | .vObj _ => "[object Object]"

/-- Element conversion of `Array.prototype.join`: `null` and `undefined`
become the empty string, everything else its `String()` form. -/
def jsStringArrElems : List JsValue → List String
  | [] => []
  | v :: vs =>
    (match v with
      | .vNull => ""
      | .vUndef => ""
      | w => jsString w) :: jsStringArrElems vs

end

/-- One escaped character of a JSON string literal (the common escapes;
no claim touches the rarer control-character escapes). -/
def jsonQuoteChar (c : Char) : String :=
  if c = '"' then "\\\""
  else if c = '\\' then "\\\\"
  else if c = '\n' then "\\n"
  else if c = '\r' then "\\r"
  else if c = '\t' then "\\t"
  else String.singleton c

/-- A JSON string literal: the escaped characters between double quotes. -/
def jsonQuote (s : String) : String :=
  "\"" ++ String.join (s.data.map jsonQuoteChar) ++ "\""

mutual

/-- `JSON.stringify`: `undefined` has no serialization (`none`), array
elements without one serialize as `null`, object fields without one are
omitted. -/
def jsonStringify : JsValue → Option String
  | .vUndef => none
  | .vNull => some "null"
  | .vBool b => some (cond b "true" "false")
  | .vNum n => some (toString n)
  | .vStr s => some (jsonQuote s)
  | .vArr elems =>
    some ("[" ++ String.intercalate "," (jsonStringifyArrElems elems) ++ "]")
  | .vObj fields =>
    some ("\x7b" ++ String.intercalate "," (jsonStringifyObjFields fields) ++ "\x7d")

/-- Array elements under `JSON.stringify`. -/
def jsonStringifyArrElems : List JsValue → List String
  | [] => []
  | v :: vs => ((jsonStringify v).getD "null") :: jsonStringifyArrElems vs

/-- Object fields under `JSON.stringify`. -/
def jsonStringifyObjFields : List (String × JsValue) → List String
  | [] => []
  | (k, v) :: fs =>
    match jsonStringify v with
    | none => jsonStringifyObjFields fs
    | some s => (jsonQuote k ++ ":" ++ s) :: jsonStringifyObjFields fs

end

/-- Per-item conversion of the `result.text.map(...)` callback followed by
`join(' ')`: an object owning a `text` property contributes that property
(empty if it is `null`/`undefined`), anything else contributes its
`String()` form. -/
def textItemString (item : JsValue) : String :=
  match item with
  | .vObj fields =>
    (match fields.lookup "text" with
      | some t => if isNullOrUndef t then "" else jsString t
      | none => jsString item)
  | _ => jsString item

/-- The text-extraction logic of `updateTranscriptionUI`: falsy `text`
renders the placeholder; a non-empty array renders its items (sub-records
contribute their `text` fields, other items their `String()` form) joined
with single spaces; a string renders itself; every other truthy value
renders its `JSON.stringify` form. -/
def updateTranscriptionUI (text : JsValue) : String :=
  if jsTruthy text then
    match text with
    | .vArr (x :: xs) => String.intercalate " " ((x :: xs).map textItemString)
    | .vStr s => s
    | other => (jsonStringify other).getD "undefined"
  else
    "(No transcription)"

/-- **C9 (counterexample).** For `result.text = ""` — a string — the
rendered text is the placeholder `(No transcription)`, not `result.text`
itself: the claim's string case is false for the empty (falsy) string. -/
theorem updateTranscriptionUI_empty_string :
    updateTranscriptionUI (JsValue.vStr "") = "(No transcription)" ∧
      "(No transcription)" ≠ "" := by
  constructor
  · rfl
  · simp

/-- **C9 (amended).** The rendered text is: `result.text` itself when it is
a non-empty string (an empty string is falsy and renders the placeholder);
the items' contributions (sub-records' `text` fields, `String()` of other
items) joined with single spaces when it is a non-empty array; and the
`JSON.stringify` form in every other case where it is truthy. -/
theorem updateTranscriptionUI_text_cases (text : JsValue) :
    (∀ s, text = .vStr s → s ≠ "" → updateTranscriptionUI text = s) ∧
    (∀ x xs, text = .vArr (x :: xs) →
        updateTranscriptionUI text =
          String.intercalate " " ((x :: xs).map textItemString)) ∧
    (jsTruthy text = true → (∀ s, text ≠ .vStr s) →
        (∀ x xs, text ≠ .vArr (x :: xs)) →
        updateTranscriptionUI text = (jsonStringify text).getD "undefined") := by
  refine ⟨?_, ?_, ?_⟩
  · rintro s rfl hs
    simp [updateTranscriptionUI, jsTruthy, hs]
  · rintro x xs rfl
    simp [updateTranscriptionUI, jsTruthy]
  · intro htruthy hnstr hnarr
    cases text with
    | vUndef => simp [jsTruthy] at htruthy
    | vNull => simp [jsTruthy] at htruthy
    | vBool b => simp [updateTranscriptionUI, htruthy]
    | vNum n => simp [updateTranscriptionUI, htruthy]
    | vStr s => exact absurd rfl (hnstr s)
    | vArr elems =>
      cases elems with
      | nil => simp [updateTranscriptionUI, htruthy]
      | cons x xs => exact absurd rfl (hnarr x xs)
    | vObj fields => simp [updateTranscriptionUI, htruthy]

/-- Witness for the amended C9: the non-empty string `"hi"` renders as
itself. -/
theorem updateTranscriptionUI_text_cases_witness :
    updateTranscriptionUI (JsValue.vStr "hi") = "hi" :=
  (updateTranscriptionUI_text_cases (JsValue.vStr "hi")).1 "hi" rfl (by simp)

/-! ## Inference client (`transcribeAudio` in `stt-transcription.ts`) -/

/-- A SageMaker `InvokeEndpoint` response as seen by the caller: an optional
raw body. -/
structure SendResponse where
  body : Option (List ℕ)

/-- The outcome of `client.send(command)`: a transport error (network,
auth, ...) or a response. -/
inductive SendOutcome where
  | err (e : String)
  | ok (data : SendResponse)

/-- The externals of one `transcribeAudio` call: the transport outcome, the
UTF-8 decoder (`TextDecoder` in non-fatal mode never throws, so it is
total), the JSON parser, and the two `Date.now()` readings taken before the
call and after it resolves. -/
structure SttEnv where
  send : SendOutcome
  decodeUtf8 : List ℕ → String
  parseJson : String → Except String JsValue
  startTime : ℤ
  endTime : ℤ

/-- JavaScript object spread: objects contribute their fields, arrays and
strings their index-keyed elements, primitives nothing. -/
def spreadFields : JsValue → List (String × JsValue)
  | .vObj fields => fields
  | .vArr elems => elems.enum.map fun p => (toString p.1, p.2)
  | .vStr s => s.data.enum.map fun p => (toString p.1, .vStr (String.singleton p.2))
  | _ => []

/-- The object literal `{ ...spread, k: v }`: a later duplicate key
overrides the spread one. -/
def setField (fields : List (String × JsValue)) (k : String) (v : JsValue) :
    List (String × JsValue) :=
  (fields.filter fun f => f.1 != k) ++ [(k, v)]

/-- `transcribeAudio` of `stt-transcription.ts`: sends the request, fails on
a transport error, an absent response body, or a JSON-parse error (the
`catch` rethrows, so all of these propagate); otherwise returns
`{ ...jsonObject, duration }` where `duration` is the measured wall-clock
round-trip time of the `send` call. -/
def transcribeAudio (env : SttEnv) : Except String (List (String × JsValue)) :=
  match env.send with
  | .err e => .error e
  | .ok data =>
    let duration := env.endTime - env.startTime
    match data.body with
    | none => .error "No response body received from SageMaker endpoint"
    | some bodyBytes =>
      let jsonString := env.decodeUtf8 bodyBytes
      match env.parseJson jsonString with
      | .error e => .error e
      | .ok jsonObject =>
        .ok (setField (spreadFields jsonObject) "duration" (.vNum duration))

/-- **C8.** `transcribeAudio` fails (propagates an error) if and only if the
transport call errors, the response body is absent, or decoding/JSON-parsing
of the body fails (the decoder itself is total, so that disjunct is carried
by the parse step); in every other case it returns a result record. -/
theorem transcribeAudio_failure_iff (env : SttEnv) :
    ((∃ e, transcribeAudio env = .error e) ↔
      ((∃ e, env.send = .err e) ∨
        (∃ data, env.send = .ok data ∧ data.body = none) ∨
        (∃ data bodyBytes, env.send = .ok data ∧ data.body = some bodyBytes ∧
          ∃ e, env.parseJson (env.decodeUtf8 bodyBytes) = .error e))) ∧
    ((∃ fields, transcribeAudio env = .ok fields) ↔
      ¬((∃ e, env.send = .err e) ∨
        (∃ data, env.send = .ok data ∧ data.body = none) ∨
        (∃ data bodyBytes, env.send = .ok data ∧ data.body = some bodyBytes ∧
          ∃ e, env.parseJson (env.decodeUtf8 bodyBytes) = .error e))) := by
  cases hs : env.send with
  | err e => simp [transcribeAudio, hs]
  | ok data =>
    cases hb : data.body with
    | none => simp [transcribeAudio, hs, hb]
    | some bodyBytes =>
      cases hp : env.parseJson (env.decodeUtf8 bodyBytes) with
      | error e => simp [transcribeAudio, hs, hb, hp]
      | ok jsonObject => simp [transcribeAudio, hs, hb, hp]

/-- Looking up the overridden key finds the overriding value. -/
theorem lookup_setField (fields : List (String × JsValue)) (k : String)
    (v : JsValue) : (setField fields k v).lookup k = some v := by
  unfold setField
  induction fields with
  | nil => simp [List.lookup]
  | cons f fs ih =>
    rcases f with ⟨fk, fv⟩
    by_cases h : fk = k
    · subst h
      simpa [List.filter_cons] using ih
    · have hne : (fk != k) = true := bne_iff_ne.mpr h
      have hke : (k == fk) = false := beq_eq_false_iff_ne.mpr (Ne.symm h)
      simpa [List.filter_cons, hne, List.lookup, hke] using ih

/-- Every binding of the overridden key in the literal carries the
overriding value. -/
theorem mem_setField_key (fields : List (String × JsValue)) (k : String)
    (v : JsValue) (p : String × JsValue) (hp : p ∈ setField fields k v)
    (hk : p.1 = k) : p.2 = v := by
  unfold setField at hp
  rcases List.mem_append.mp hp with h | h
  · have hpred := List.of_mem_filter h
    rw [hk] at hpred
    simp at hpred
  · simp at h
    rw [h]

/-- **C10.** On every successful call, the returned record's `duration`
field is the measured wall-clock round-trip time `endTime - startTime`; a
`duration` field inside the service's JSON payload is overridden by the
measured value (the spread comes first in `{ ...jsonObject, duration }`). -/
theorem transcribeAudio_duration_measured (env : SttEnv) (data : SendResponse)
    (bodyBytes : List ℕ) (jsonObject : JsValue)
    (hs : env.send = .ok data) (hb : data.body = some bodyBytes)
    (hp : env.parseJson (env.decodeUtf8 bodyBytes) = .ok jsonObject) :
    ∃ fields, transcribeAudio env = .ok fields ∧
      fields.lookup "duration" = some (.vNum (env.endTime - env.startTime)) ∧
      ∀ v, ("duration", v) ∈ fields → v = .vNum (env.endTime - env.startTime) := by
  refine ⟨setField (spreadFields jsonObject) "duration"
      (.vNum (env.endTime - env.startTime)), ?_, lookup_setField _ _ _, ?_⟩
  · simp [transcribeAudio, hs, hb, hp]
  · intro v hv
    exact mem_setField_key _ _ _ _ hv rfl

/-- A concrete successful call whose JSON payload itself carries
`duration: 999`, with measured times 100 and 105. -/
def measuredEnv : SttEnv where
  send := .ok ⟨some [1]⟩
  decodeUtf8 := fun _ => "response"
  parseJson := fun _ =>
    .ok (.vObj [("text", .vStr "hello"), ("duration", .vNum 999)])
  startTime := 100
  endTime := 105

/-- Witness for C10: in `measuredEnv` the returned `duration` is the
measured 5 ms, not the payload's 999. -/
theorem transcribeAudio_duration_measured_witness :
    ∃ fields, transcribeAudio measuredEnv = .ok fields ∧
      fields.lookup "duration" = some (.vNum 5) ∧
      ∀ v, ("duration", v) ∈ fields → v = .vNum 5 :=
  transcribeAudio_duration_measured measuredEnv ⟨some [1]⟩ [1]
    (.vObj [("text", .vStr "hello"), ("duration", .vNum 999)]) rfl rfl rfl
